import Mathlib

/-!
Verification development for the receipts storage client
(`GoogleDriveService`): a shallow embedding of its folder-path
materialization, upload naming, listing/aggregation, token cache and
display-URL cache, with theorems about the behaviours the spec records.

The remote Drive store is modelled as a list of nodes (folders and
files) plus a fresh-id counter; each network operation of the client
becomes a pure function on that state.  Remote queries return the
first match of the store list, mirroring `data.files[0]` in the source.
-/

namespace Receipts

/-- A remote node (folder or file) of the backing store, with the
metadata fields the client requests: `id, name, parents, mimeType,
trashed, createdTime, size, webViewLink, thumbnailLink`. -/
structure DriveNode where
  id : Nat
  name : String
  parent : Option Nat
  mimeType : String
  trashed : Bool
  createdTime : Nat
  size : Option String
  webViewLink : String
  thumbnailLink : Option String
deriving DecidableEq

/-- The folder mime type used in every folder query and creation. -/
def folderMimeType : String := "application/vnd.google-apps.folder"

/-- The predicate of the `findFolder` query string:
`name='{name}' and mimeType='application/vnd.google-apps.folder' and
trashed=false` plus, when a parent is given, `'{parentId}' in parents`. -/
def folderQueryMatch (name : String) (parentId : Option Nat) (f : DriveNode) : Bool :=
  f.name == name && f.mimeType == folderMimeType && !f.trashed &&
    (match parentId with
     | none => true
     | some p => f.parent == some p)

/-- The backing store: its nodes in server order, and the next id the
server hands out on creation. -/
structure DriveState where
  nodes : List DriveNode
  nextId : Nat
deriving DecidableEq

/-- Embeds `findFolder(name, parentId?)`: runs the folder query and
returns `data.files[0].id`, or `null` when nothing matches. -/
def findFolder (name : String) (parentId : Option Nat) (s : DriveState) : Option Nat :=
  (s.nodes.find? (folderQueryMatch name parentId)).map DriveNode.id

/-- The node a folder-create call adds: the given name, the folder mime
type, the optional `parents` reference, not trashed. -/
def mkFolderNode (id : Nat) (name : String) (parentId : Option Nat) : DriveNode :=
  { id := id, name := name, parent := parentId, mimeType := folderMimeType,
    trashed := false, createdTime := 0, size := none, webViewLink := "",
    thumbnailLink := none }

/-- Embeds `createFolder(name, parentId?)`: no collision check, the
server appends a fresh node and returns its id. -/
def createFolder (name : String) (parentId : Option Nat) (s : DriveState) : Nat × DriveState :=
  (s.nextId, ⟨s.nodes ++ [mkFolderNode s.nextId name parentId], s.nextId + 1⟩)

/-- One stage of `ensureFolderPath`: `let id = await findFolder(...)`
followed by `if (!id) id = await createFolder(...)`. -/
def findOrCreate (name : String) (parentId : Option Nat) (s : DriveState) :
    Nat × DriveState :=
  match findFolder name parentId s with
  | some fid => (fid, s)
  | none => createFolder name parentId s

/-- Embeds `ensureFolderPath(year, month)`: three sequential
find-or-create steps, root `receipts` → year → month, returning the
month folder id together with the store left behind. -/
def ensureFolderPath (year month : String) (s : DriveState) : Nat × DriveState :=
  let (receiptsId, s1) := findOrCreate "receipts" none s
  let (yearId, s2) := findOrCreate year (some receiptsId) s1
  let (monthId, s3) := findOrCreate month (some yearId) s2
  (monthId, s3)

/-- Pads a decimal string on the left with zeros to the given width,
as `String.padStart(width, '0')` does. -/
def padZero (width : Nat) (s : String) : String :=
  String.mk (List.replicate (width - s.length) '0') ++ s

/-- A calendar timestamp in UTC, standing for the JavaScript `Date`
argument of `uploadReceipt` (month is 1-based here; the `getMonth`
accessor below restores the 0-based convention). -/
structure JsDate where
  year : Nat
  month : Nat
  day : Nat
  hour : Nat
  minute : Nat
  second : Nat
  millisecond : Nat
deriving DecidableEq

/-- The `getFullYear()` accessor. -/
def JsDate.getFullYear (d : JsDate) : Nat := d.year

/-- The `getMonth()` accessor: 0-based month. -/
def JsDate.getMonth (d : JsDate) : Nat := d.month - 1

/-- The `toISOString()` rendering:
`YYYY-MM-DDTHH:mm:ss.sssZ` with zero-padded components. -/
def JsDate.toISOString (d : JsDate) : String :=
  padZero 4 (toString d.year) ++ "-" ++ padZero 2 (toString d.month) ++ "-" ++
    padZero 2 (toString d.day) ++ "T" ++ padZero 2 (toString d.hour) ++ ":" ++
    padZero 2 (toString d.minute) ++ ":" ++ padZero 2 (toString d.second) ++
    "." ++ padZero 3 (toString d.millisecond) ++ "Z"

/-- The year component `date.getFullYear().toString()` used by
`uploadReceipt`. -/
def uploadYear (d : JsDate) : String := toString d.getFullYear

/-- The month component `String(date.getMonth() + 1).padStart(2, '0')`
used by `uploadReceipt`. -/
def uploadMonth (d : JsDate) : String := padZero 2 (toString (d.getMonth + 1))

/-- Embeds `description.replace(/[^a-zA-Z0-9]/g, '_')`: every character
outside the ASCII alphanumeric set becomes one underscore (stated on
the character list of the string). -/
def sanitizeDescription (description : String) : String :=
  String.mk (description.data.map (fun c => if c.isAlphanum then c else '_'))

/-- Embeds `date.toISOString().replace(/[:.]/g, '-')`: the ISO form
with each colon and dot turned into a dash. -/
def timestampToken (d : JsDate) : String :=
  String.mk (d.toISOString.data.map (fun c => if c = ':' || c = '.' then '-' else c))

/-- The remote file name `uploadReceipt` builds:
sanitized description, underscore, dashed timestamp, `.jpg`. -/
def receiptFileName (description : String) (d : JsDate) : String :=
  sanitizeDescription description ++ "_" ++ timestampToken d ++ ".jpg"

/-- The folder path string `uploadReceipt` returns:
`receipts/{year}/{month}`. -/
def receiptFolderPath (d : JsDate) : String :=
  "receipts/" ++ uploadYear d ++ "/" ++ uploadMonth d

/-- Embeds the description recovery of `listReceipts`:
`fileName.split('_')[0].replace(/[_-]/g, ' ') || 'Receipt'` — the
segment before the first underscore, its `_`/`-` characters turned into
spaces, defaulting to `"Receipt"` when that segment is empty. -/
def deriveDescription (fileName : String) : String :=
  let first := fileName.data.takeWhile (fun c => c != '_')
  let replaced := first.map (fun c => if c = '_' || c = '-' then ' ' else c)
  if replaced.isEmpty then "Receipt" else String.mk replaced

/-- Embeds the digit-run evaluation of JavaScript `parseInt`: the value
of the leading decimal digits, or `none` when there is no digit. -/
def leadingDigitsVal (cs : List Char) : Option Nat :=
  let ds := cs.takeWhile Char.isDigit
  if ds.isEmpty then none
  else some (ds.foldl (fun acc c => acc * 10 + (c.toNat - '0'.toNat)) 0)

/-- Embeds JavaScript `parseInt(str)` in base 10: leading whitespace is
skipped, an optional sign is read, then the longest digit run is
evaluated; `none` stands for `NaN`. -/
def parseIntJs (str : String) : Option Int :=
  let cs := str.data.dropWhile (fun c => c = ' ' || c = '\t' || c = '\n' || c = '\r')
  match cs with
  | '-' :: rest => (leadingDigitsVal rest).map (fun n => -(n : Int))
  | '+' :: rest => (leadingDigitsVal rest).map (fun n => (n : Int))
  | rest => (leadingDigitsVal rest).map (fun n => (n : Int))

/-- Embeds `parseInt(file.size) || 0`: an absent size field
(`parseInt(undefined)` is `NaN`) or an unparseable one falls back to 0;
`parseInt` returning 0 also keeps 0 through `|| 0`. -/
def sizeOr0 (sizeField : Option String) : Int :=
  match sizeField with
  | none => 0
  | some str =>
    match parseIntJs str with
    | some v => v
    | none => 0

/-- The public view URL both branches of `getHighQualityImageUrl`
construct for a file id. -/
def publicViewUrl (fileId : String) : String :=
  "https://drive.google.com/uc?export=view&id=" ++ fileId

/-- One aggregated record of `listReceipts`. -/
structure ReceiptFile where
  id : Nat
  name : String
  description : String
  date : Nat
  webViewLink : String
  thumbnailLink : Option String
  imageUrl : String
  mimeType : String
  size : Int
deriving DecidableEq

/-- The child-folder query of `listReceipts`:
`'{p}' in parents and mimeType='application/vnd.google-apps.folder' and
trashed=false`, in server order. -/
def childFolders (s : DriveState) (p : Nat) : List DriveNode :=
  s.nodes.filter (fun f =>
    f.parent == some p && f.mimeType == folderMimeType && !f.trashed)

/-- Inserts a node into a list kept in descending creation-time order. -/
def insertByCreatedDesc (f : DriveNode) : List DriveNode → List DriveNode
  | [] => [f]
  | g :: gs =>
    if g.createdTime ≤ f.createdTime then f :: g :: gs
    else g :: insertByCreatedDesc f gs

/-- Sorts nodes by descending creation time (the server-side
`orderBy=createdTime desc` of the leaf-file query). -/
def sortByCreatedDesc : List DriveNode → List DriveNode
  | [] => []
  | f :: fs => insertByCreatedDesc f (sortByCreatedDesc fs)

/-- The leaf-file query of `listReceipts`:
`'{p}' in parents and mimeType != folder and trashed=false`, returned
by the server ordered by `createdTime desc`. -/
def childFiles (s : DriveState) (p : Nat) : List DriveNode :=
  sortByCreatedDesc (s.nodes.filter (fun f =>
    f.parent == some p && f.mimeType != folderMimeType && !f.trashed))

/-- The record `listReceipts` builds from one discovered file.  Both
branches of `getHighQualityImageUrl` yield the same
`publicViewUrl` string, so the record's `imageUrl` is that URL. -/
def receiptRecordOfFile (file : DriveNode) : ReceiptFile :=
  { id := file.id
    name := file.name
    description := deriveDescription file.name
    date := file.createdTime
    webViewLink := file.webViewLink
    thumbnailLink := file.thumbnailLink
    imageUrl := publicViewUrl (toString file.id)
    mimeType := file.mimeType
    size := sizeOr0 file.size }

/-- Embeds `listReceipts()`: resolve the root `receipts` folder (empty
result when absent), walk year folders then month folders, and collect
one record per leaf file. -/
def listReceipts (s : DriveState) : List ReceiptFile :=
  match findFolder "receipts" none s with
  | none => []
  | some receiptsId =>
    let yearFolders := childFolders s receiptsId
    if yearFolders.isEmpty then []
    else
      yearFolders.flatMap (fun yearFolder =>
        (childFolders s yearFolder.id).flatMap (fun monthFolder =>
          (childFiles s monthFolder.id).map receiptRecordOfFile))

/-- One network request of the client, by endpoint kind. -/
inductive NetCall where
  | tokenEndpoint
  | folderQuery
  | folderCreate
  | uploadPost
deriving DecidableEq

/-- The client instance: the cached-token slot, the backing store it
talks to, and the trace of network requests it has issued. -/
structure Client where
  accessToken : Option String
  drive : DriveState
  log : List NetCall
deriving DecidableEq

/-- Embeds `getAccessToken()`: a cached token is returned immediately
with no request; otherwise one token-endpoint request is issued and its
token is cached (the exchange is modelled as succeeding — every claim
below concerns runs where authentication is available). -/
def Client.getAccessTokenM (c : Client) : String × Client :=
  match c.accessToken with
  | some t => (t, c)
  | none =>
    ("access-token",
     { c with accessToken := some "access-token",
              log := c.log ++ [NetCall.tokenEndpoint] })

/-- Embeds `findFolder` at the client level: acquire a token, then issue
one folder-query request against the store. -/
def Client.findFolderM (name : String) (parentId : Option Nat) (c : Client) :
    Option Nat × Client :=
  let (_, c1) := c.getAccessTokenM
  (findFolder name parentId c1.drive,
   { c1 with log := c1.log ++ [NetCall.folderQuery] })

/-- Embeds `createFolder` at the client level: acquire a token, then
issue one folder-create request that appends a fresh node. -/
def Client.createFolderM (name : String) (parentId : Option Nat) (c : Client) :
    Nat × Client :=
  let (_, c1) := c.getAccessTokenM
  let (fid, d) := createFolder name parentId c1.drive
  (fid, { c1 with drive := d, log := c1.log ++ [NetCall.folderCreate] })

/-- One stage of `ensureFolderPath` at the client level: find, and
create when the find returned `null`. -/
def Client.findOrCreateM (name : String) (parentId : Option Nat) (c : Client) :
    Nat × Client :=
  match c.findFolderM name parentId with
  | (some fid, c') => (fid, c')
  | (none, c') => c'.createFolderM name parentId

/-- Embeds `ensureFolderPath` at the client level: the same three
find-or-create steps as the pure `ensureFolderPath`, with the requests
they issue recorded in the trace. -/
def Client.ensureFolderPathM (year month : String) (c : Client) : Nat × Client :=
  let (receiptsId, c1) := c.findOrCreateM "receipts" none
  let (yearId, c2) := c1.findOrCreateM year (some receiptsId)
  let (monthId, c3) := c2.findOrCreateM month (some yearId)
  (monthId, c3)

/-- The error `uploadFile` raises when `FileSystem.getInfoAsync` reports
that the local source file does not exist. -/
inductive UploadErr where
  | localFileMissing
deriving DecidableEq

/-- The node the multipart upload request creates: the given name under
the given parent, with the image content type declared in the body. -/
def mkFileNode (id : Nat) (name : String) (parentId : Nat) : DriveNode :=
  { id := id, name := name, parent := some parentId, mimeType := "image/jpeg",
    trashed := false, createdTime := 0, size := none, webViewLink := "",
    thumbnailLink := none }

/-- Embeds `uploadFile(filePath, fileName, parentId)`: a token is
acquired first, then the local file is stat'ed; a missing file raises
the local-file error with no upload request, otherwise the multipart
POST is issued and the new file id returned. -/
def Client.uploadFileM (fileExists : Bool) (fileName : String) (parentId : Nat)
    (c : Client) : Except UploadErr Nat × Client :=
  let (_, c1) := c.getAccessTokenM
  if fileExists then
    let fid := c1.drive.nextId
    (Except.ok fid,
     { c1 with
        drive := ⟨c1.drive.nodes ++ [mkFileNode fid fileName parentId],
                  c1.drive.nextId + 1⟩,
        log := c1.log ++ [NetCall.uploadPost] })
  else
    (Except.error UploadErr.localFileMissing, c1)

/-- Embeds `uploadReceipt(filePath, description, date)`: derive year and
zero-padded month, ensure the folder path, build the remote file name,
upload, and return the file id with `receipts/{year}/{month}`. -/
def Client.uploadReceiptM (fileExists : Bool) (description : String) (date : JsDate)
    (c : Client) : Except UploadErr (Nat × String) × Client :=
  let year := uploadYear date
  let month := uploadMonth date
  let (monthFolderId, c1) := c.ensureFolderPathM year month
  let fileName := receiptFileName description date
  match c1.uploadFileM fileExists fileName monthFolderId with
  | (Except.ok fid, c2) => (Except.ok (fid, "receipts/" ++ year ++ "/" ++ month), c2)
  | (Except.error e, c2) => (Except.error e, c2)

/-- The display-URL resolver state: the per-file URL cache and a count
of permission-grant requests issued. -/
structure ImgState where
  imageUrlCache : List (String × String)
  grantRequests : Nat
deriving DecidableEq

/-- Embeds `makeFilePublic(fileId)`: when a token is available one
permission-grant POST is issued, and any non-success response is logged
and swallowed, so the call returns normally whatever `grantOk` says;
only a failure to obtain the token escapes as an error. -/
def makeFilePublic (tokenOk grantOk : Bool) (st : ImgState) :
    Except String Unit × ImgState :=
  if tokenOk then
    let st1 := { st with grantRequests := st.grantRequests + 1 }
    if grantOk then (Except.ok (), st1)
    else (Except.ok (), st1)
  else
    (Except.error "token exchange failed", st)

/-- Embeds `getHighQualityImageUrl(fileId)`: a cached URL is returned
untouched; otherwise `makeFilePublic` is attempted and, whether it
returns or throws, the same public view URL is cached and returned —
the grant failure never propagates. -/
def getHighQualityImageUrl (tokenOk grantOk : Bool) (fileId : String)
    (st : ImgState) : String × ImgState :=
  match st.imageUrlCache.lookup fileId with
  | some url => (url, st)
  | none =>
    match makeFilePublic tokenOk grantOk st with
    | (Except.ok _, st1) =>
      let publicUrl := publicViewUrl fileId
      (publicUrl,
       { st1 with imageUrlCache := (fileId, publicUrl) :: st1.imageUrlCache })
    | (Except.error _, st1) =>
      let fallbackUrl := publicViewUrl fileId
      (fallbackUrl,
       { st1 with imageUrlCache := (fileId, fallbackUrl) :: st1.imageUrlCache })

/-!
Theorems.  Helper lemmas come first; each claim is settled by one
theorem carrying the claim id in its doc comment.
-/

/-- Every derived description is non-empty: the placeholder covers the
empty segment, and a non-empty replaced segment is returned as is. -/
theorem insert_mem_iff (a f : DriveNode) (l : List DriveNode) :
    a ∈ insertByCreatedDesc f l ↔ a = f ∨ a ∈ l := by
  induction l with
  | nil => simp [insertByCreatedDesc]
  | cons g gs ih =>
    unfold insertByCreatedDesc
    split
    · simp
    · simp [ih]
      tauto

theorem sort_mem_iff (a : DriveNode) (l : List DriveNode) :
    a ∈ sortByCreatedDesc l ↔ a ∈ l := by
  induction l with
  | nil => simp [sortByCreatedDesc]
  | cons f fs ih => simp [sortByCreatedDesc, insert_mem_iff, ih]

theorem deriveDescription_ne_empty (name : String) : deriveDescription name ≠ "" := by
  simp only [deriveDescription]
  split
  · decide
  · rename_i hrep
    intro hcontra
    apply hrep
    have := congrArg String.data hcontra
    simpa [List.isEmpty_iff] using this

/-- Every record of `listReceipts` is `receiptRecordOfFile` applied to
a node of the store. -/
theorem mem_listReceipts {s : DriveState} {r : ReceiptFile}
    (h : r ∈ listReceipts s) : ∃ f, f ∈ s.nodes ∧ r = receiptRecordOfFile f := by
  unfold listReceipts at h
  cases hR : findFolder "receipts" none s with
  | none => rw [hR] at h; simp at h
  | some receiptsId =>
    rw [hR] at h
    by_cases hE : (childFolders s receiptsId).isEmpty
    · simp only [hE, if_true] at h
      simp at h
    · simp only [hE] at h
      rw [if_neg Bool.false_ne_true] at h
      simp only [List.mem_flatMap, List.mem_map] at h
      obtain ⟨yearFolder, _, monthFolder, _, file, hfile, hr⟩ := h
      refine ⟨file, ?_, hr.symm⟩
      have hmem : file ∈ s.nodes.filter (fun f =>
          f.parent == some monthFolder.id && f.mimeType != folderMimeType && !f.trashed) := by
        unfold childFiles at hfile
        exact (sort_mem_iff _ _).1 hfile
      exact (List.mem_filter.1 hmem).1

/-- Claim C3 (counterexample): the claim states that the description
`"Office & Supplies!"` sanitizes to `"Office__Supplies_"` with three
characters replaced; on the code the sanitized form differs, because
the description holds four non-alphanumeric characters. -/
theorem sanitize_office_claim_false :
    sanitizeDescription "Office & Supplies!" ≠ "Office__Supplies_" := by decide

/-- Claim C3 (amended): `uploadReceipt` with description
`"Office & Supplies!"` sanitizes the description part of the remote
file name to exactly `"Office___Supplies_"`, with each of the four
non-alphanumeric characters (two spaces, the ampersand and the
exclamation mark) replaced individually, before the timestamp suffix is
appended. -/
theorem sanitize_office_amended :
    sanitizeDescription "Office & Supplies!" = "Office___Supplies_" ∧
    ∀ d : JsDate, receiptFileName "Office & Supplies!" d =
      "Office___Supplies_" ++ "_" ++ timestampToken d ++ ".jpg" := by
  refine ⟨by decide, fun d => ?_⟩
  unfold receiptFileName
  rw [show sanitizeDescription "Office & Supplies!" = "Office___Supplies_" by decide]

/-- Claim C9: on a client whose token slot is populated,
`getAccessToken` returns the cached token with the client state (store,
log, slot) untouched, and a second call does the same — zero
token-endpoint requests, no network I/O, slot unchanged. -/
theorem getAccessToken_cached_no_network (c : Client) (t : String)
    (h : c.accessToken = some t) :
    c.getAccessTokenM = (t, c) ∧
    ((c.getAccessTokenM).2).getAccessTokenM = (t, c) := by
  have h1 : c.getAccessTokenM = (t, c) := by
    unfold Client.getAccessTokenM; rw [h]
  exact ⟨h1, by rw [h1]; exact h1⟩

/-- Claim C9 witness: a concrete pre-cached client. -/
theorem getAccessToken_cached_no_network_witness :
    Client.getAccessTokenM ⟨some "tok", ⟨[], 0⟩, []⟩ = ("tok", ⟨some "tok", ⟨[], 0⟩, []⟩) ∧
    ((Client.getAccessTokenM ⟨some "tok", ⟨[], 0⟩, []⟩).2).getAccessTokenM =
      ("tok", ⟨some "tok", ⟨[], 0⟩, []⟩) :=
  getAccessToken_cached_no_network ⟨some "tok", ⟨[], 0⟩, []⟩ "tok" rfl

/-- Claim C5: two display-URL resolutions for the same file id return
identical URLs, the second leaves the state untouched (served from the
cache, no network call), at most one permission-grant request is issued
in total, and whatever the grant outcome (`tk`, `gk` range over both
token and grant success and failure) the URL is cached and returned —
a failed grant never propagates. -/
theorem getDisplayUrl_memoized (fileId : String) (st : ImgState)
    (tk1 gk1 tk2 gk2 : Bool) :
    (getHighQualityImageUrl tk2 gk2 fileId
        (getHighQualityImageUrl tk1 gk1 fileId st).2).1 =
      (getHighQualityImageUrl tk1 gk1 fileId st).1 ∧
    (getHighQualityImageUrl tk2 gk2 fileId
        (getHighQualityImageUrl tk1 gk1 fileId st).2).2 =
      (getHighQualityImageUrl tk1 gk1 fileId st).2 ∧
    (getHighQualityImageUrl tk1 gk1 fileId st).2.grantRequests ≤ st.grantRequests + 1 ∧
    (getHighQualityImageUrl tk1 gk1 fileId st).2.imageUrlCache.lookup fileId =
      some (getHighQualityImageUrl tk1 gk1 fileId st).1 := by
  cases hC : st.imageUrlCache.lookup fileId with
  | some url =>
    simp [getHighQualityImageUrl, hC, Nat.le_succ]
  | none =>
    cases tk1 <;> cases gk1 <;>
      simp [getHighQualityImageUrl, makeFilePublic, hC, Nat.le_succ]

/-- Claim C6: `listReceipts` against a store holding no (untrashed)
folder named `receipts` returns the empty sequence; the model is a
total function, so no error is raised on this path. -/
theorem listReceipts_no_receipts_folder (s : DriveState)
    (h : ∀ f ∈ s.nodes,
      ¬(f.name = "receipts" ∧ f.mimeType = folderMimeType ∧ f.trashed = false)) :
    listReceipts s = [] := by
  have hnone : s.nodes.find? (folderQueryMatch "receipts" none) = none := by
    rw [List.find?_eq_none]
    intro x hx
    have hx2 := h x hx
    simp only [folderQueryMatch, Bool.and_true, Bool.and_eq_true, beq_iff_eq,
      Bool.not_eq_true'] at *
    intro hcontra
    exact hx2 ⟨hcontra.1.1, hcontra.1.2, hcontra.2⟩
  have hfind : findFolder "receipts" none s = none := by
    unfold findFolder; rw [hnone]; rfl
  unfold listReceipts
  rw [hfind]

/-- Claim C6 witness: a store holding one unrelated folder. -/
theorem listReceipts_no_receipts_folder_witness :
    listReceipts ⟨[⟨0, "taxes", none, folderMimeType, false, 0, none, "", none⟩], 1⟩ = [] :=
  listReceipts_no_receipts_folder _ (by decide)

/-- Claim C8: every record aggregated by `listReceipts` carries a
non-empty description, and for every remote file name whatsoever whose
segment before the first underscore is empty, the derived description
is the placeholder `"Receipt"`. -/
theorem listReceipts_description_nonempty :
    (∀ (s : DriveState) (r : ReceiptFile), r ∈ listReceipts s → r.description ≠ "") ∧
    (∀ name : String, name.data.takeWhile (fun c => c != '_') = [] →
      deriveDescription name = "Receipt") := by
  constructor
  · intro s r hr
    obtain ⟨f, _, rfl⟩ := mem_listReceipts hr
    exact deriveDescription_ne_empty f.name
  · intro name h
    unfold deriveDescription
    rw [h]
    rfl

/-- A concrete stored receipt file used by the listing claims. -/
def coffeeNode : DriveNode :=
  ⟨3, "Coffee_2024-12-01T09-00-00-000Z.jpg", some 2, "image/jpeg",
   false, 5, some "1000", "", none⟩

/-- A concrete store `receipts/2024/12` holding exactly the
`coffeeNode` file. -/
def coffeeStore : DriveState :=
  ⟨[⟨0, "receipts", none, folderMimeType, false, 0, none, "", none⟩,
    ⟨1, "2024", some 0, folderMimeType, false, 0, none, "", none⟩,
    ⟨2, "12", some 1, folderMimeType, false, 0, none, "", none⟩,
    coffeeNode], 4⟩

/-- Claim C7: every record of `listReceipts` derives its description
from its own file name by the split-and-replace rule, and the concrete
month folder holding only `"Coffee_2024-12-01T09-00-00-000Z.jpg"`
yields exactly one record, whose description is `"Coffee"`. -/
theorem listReceipts_description_derivation :
    (∀ (s : DriveState) (r : ReceiptFile), r ∈ listReceipts s →
      r.description = deriveDescription r.name) ∧
    listReceipts coffeeStore = [receiptRecordOfFile coffeeNode] ∧
    (receiptRecordOfFile coffeeNode).description = "Coffee" := by
  refine ⟨?_, by decide, by decide⟩
  intro s r hr
  obtain ⟨f, _, rfl⟩ := mem_listReceipts hr
  rfl

/-- Claim C7 witness: the derivation rule applied to the concrete
record of the coffee store. -/
theorem listReceipts_description_derivation_witness :
    (receiptRecordOfFile coffeeNode).description =
      deriveDescription (receiptRecordOfFile coffeeNode).name :=
  listReceipts_description_derivation.1 coffeeStore _ (by decide)

/-- Claim C10: every record of `listReceipts` carries a defined size:
the one of a store node, equal to the `parseInt` value of that node's
size string when it parses, and 0 when the field is absent or
unparseable — never an undefined or NaN size. -/
theorem listReceipts_size_defined :
    ∀ (s : DriveState) (r : ReceiptFile), r ∈ listReceipts s →
      ∃ f, f ∈ s.nodes ∧ r.id = f.id ∧ r.size = sizeOr0 f.size ∧
        (f.size = none → r.size = 0) ∧
        (∀ str v, f.size = some str → parseIntJs str = some v → r.size = v) ∧
        (∀ str, f.size = some str → parseIntJs str = none → r.size = 0) := by
  intro s r hr
  obtain ⟨f, hf, rfl⟩ := mem_listReceipts hr
  refine ⟨f, hf, rfl, rfl, ?_, ?_, ?_⟩
  · intro h
    simp [receiptRecordOfFile, sizeOr0, h]
  · intro str v h hv
    simp [receiptRecordOfFile, sizeOr0, h, hv]
  · intro str h hv
    simp [receiptRecordOfFile, sizeOr0, h, hv]

/-- Claim C10 witness: the size of the concrete coffee record is the
parsed value of its stored size string. -/
theorem listReceipts_size_defined_witness :
    ∃ f, f ∈ coffeeStore.nodes ∧ (receiptRecordOfFile coffeeNode).id = f.id ∧
      (receiptRecordOfFile coffeeNode).size = sizeOr0 f.size ∧
      (f.size = none → (receiptRecordOfFile coffeeNode).size = 0) ∧
      (∀ str v, f.size = some str → parseIntJs str = some v →
        (receiptRecordOfFile coffeeNode).size = v) ∧
      (∀ str, f.size = some str → parseIntJs str = none →
        (receiptRecordOfFile coffeeNode).size = 0) :=
  listReceipts_size_defined coffeeStore _ (by decide)

/-- Claim C8 witness: a record of a concrete listing has a non-empty
description, and a name opening with an underscore falls back to the
placeholder. -/
theorem listReceipts_description_nonempty_witness :
    (receiptRecordOfFile
        ⟨3, "Coffee_2024-12-01T09-00-00-000Z.jpg", some 2, "image/jpeg",
         false, 5, some "1000", "", none⟩).description ≠ "" ∧
    deriveDescription "_2024.jpg" = "Receipt" :=
  ⟨listReceipts_description_nonempty.1
      ⟨[⟨0, "receipts", none, folderMimeType, false, 0, none, "", none⟩,
        ⟨1, "2024", some 0, folderMimeType, false, 0, none, "", none⟩,
        ⟨2, "12", some 1, folderMimeType, false, 0, none, "", none⟩,
        ⟨3, "Coffee_2024-12-01T09-00-00-000Z.jpg", some 2, "image/jpeg",
         false, 5, some "1000", "", none⟩], 4⟩ _ (by decide),
   listReceipts_description_nonempty.2 "_2024.jpg" (by decide)⟩

/-- With an existing local file the upload POST always succeeds in the
model, handing back a fresh file id. -/
theorem uploadFileM_ok (fileName : String) (parentId : Nat) (c : Client) :
    ∃ fid c2, c.uploadFileM true fileName parentId = (Except.ok fid, c2) := by
  cases h : c.getAccessTokenM with
  | mk tok c1 =>
    refine ⟨c1.drive.nextId,
      { c1 with
          drive := ⟨c1.drive.nodes ++ [mkFileNode c1.drive.nextId fileName parentId],
                    c1.drive.nextId + 1⟩,
          log := c1.log ++ [NetCall.uploadPost] }, ?_⟩
    simp [Client.uploadFileM, h]

/-- Claim C2: `uploadReceipt` builds the remote file name by replacing
each non-alphanumeric description character with an underscore,
appending an underscore, the ISO timestamp with `:` and `.` turned into
`-`, and `.jpg`; it returns folder path `receipts/{year}/{month}` with
the month zero-padded; description `"Gas"` at
`2025-01-26T15:30:45.123Z` yields the name
`"Gas_2025-01-26T15-30-45-123Z.jpg"` and path `"receipts/2025/01"`. -/
theorem uploadReceipt_name_and_path :
    (∀ (description : String) (d : JsDate),
      receiptFileName description d =
        String.mk (description.data.map (fun ch => if ch.isAlphanum then ch else '_')) ++
          "_" ++
          String.mk (d.toISOString.data.map
            (fun ch => if ch = ':' || ch = '.' then '-' else ch)) ++ ".jpg") ∧
    (∀ (description : String) (d : JsDate) (c : Client),
      ∃ fid c2, c.uploadReceiptM true description d =
        (Except.ok (fid,
          "receipts/" ++ toString d.getFullYear ++ "/" ++
            padZero 2 (toString (d.getMonth + 1))), c2)) ∧
    receiptFileName "Gas" ⟨2025, 1, 26, 15, 30, 45, 123⟩ =
      "Gas_2025-01-26T15-30-45-123Z.jpg" ∧
    (Client.uploadReceiptM true "Gas" ⟨2025, 1, 26, 15, 30, 45, 123⟩
        ⟨none, ⟨[], 0⟩, []⟩).1 = Except.ok (3, "receipts/2025/01") := by
  refine ⟨fun description d => rfl, ?_, by decide, by rfl⟩
  intro description d c
  cases hE : c.ensureFolderPathM (uploadYear d) (uploadMonth d) with
  | mk mfid c1 =>
    obtain ⟨fid, c2, hU⟩ := uploadFileM_ok (receiptFileName description d) mfid c1
    refine ⟨fid, c2, ?_⟩
    simp only [Client.uploadReceiptM, hE, hU]
    rfl

/-- Token acquisition leaves the number of upload POSTs in the trace
unchanged. -/
theorem count_uploadPost_token (c : Client) :
    (c.getAccessTokenM).2.log.count NetCall.uploadPost =
      c.log.count NetCall.uploadPost := by
  cases h : c.accessToken <;>
    simp [Client.getAccessTokenM, h, List.count_append]

/-- A folder query leaves the number of upload POSTs unchanged. -/
theorem count_uploadPost_find (name : String) (pid : Option Nat) (c : Client) :
    (c.findFolderM name pid).2.log.count NetCall.uploadPost =
      c.log.count NetCall.uploadPost := by
  cases h : c.getAccessTokenM with
  | mk tok c1 =>
    have h1 := count_uploadPost_token c
    rw [h] at h1
    simp [Client.findFolderM, h, List.count_append, h1]

/-- A folder creation leaves the number of upload POSTs unchanged. -/
theorem count_uploadPost_create (name : String) (pid : Option Nat) (c : Client) :
    (c.createFolderM name pid).2.log.count NetCall.uploadPost =
      c.log.count NetCall.uploadPost := by
  cases h : c.getAccessTokenM with
  | mk tok c1 =>
    have h1 := count_uploadPost_token c
    rw [h] at h1
    simp [Client.createFolderM, h, List.count_append, h1]

/-- A find-or-create stage leaves the number of upload POSTs
unchanged. -/
theorem count_uploadPost_findOrCreate (name : String) (pid : Option Nat) (c : Client) :
    (c.findOrCreateM name pid).2.log.count NetCall.uploadPost =
      c.log.count NetCall.uploadPost := by
  cases h : c.findFolderM name pid with
  | mk o c' =>
    have h1 := count_uploadPost_find name pid c
    rw [h] at h1
    cases o with
    | some fid => simpa [Client.findOrCreateM, h] using h1
    | none =>
      have h2 := count_uploadPost_create name pid c'
      simp [Client.findOrCreateM, h, h2, h1]

/-- The whole folder-path resolution leaves the number of upload POSTs
unchanged. -/
theorem count_uploadPost_ensure (year month : String) (c : Client) :
    (c.ensureFolderPathM year month).2.log.count NetCall.uploadPost =
      c.log.count NetCall.uploadPost := by
  cases h1 : c.findOrCreateM "receipts" none with
  | mk receiptsId c1 =>
    cases h2 : c1.findOrCreateM year (some receiptsId) with
    | mk yearId c2 =>
      cases h3 : c2.findOrCreateM month (some yearId) with
      | mk monthId c3 =>
        have e1 := count_uploadPost_findOrCreate "receipts" none c
        have e2 := count_uploadPost_findOrCreate year (some receiptsId) c1
        have e3 := count_uploadPost_findOrCreate month (some yearId) c2
        rw [h1] at e1
        rw [h2] at e2
        rw [h3] at e3
        simp only [] at e1 e2 e3
        simp [Client.ensureFolderPathM, h1, h2, h3]
        omega

/-- Claim C4 (counterexample): the claim asserts that a missing local
file fails before any network call; on the code, the concrete run with
the file absent fails with the local-file error but the token-endpoint
request, folder queries and folder creations have all been issued. -/
theorem uploadReceipt_missing_file_claim_false :
    (Client.uploadReceiptM false "Gas" ⟨2025, 1, 26, 15, 30, 45, 123⟩
        ⟨none, ⟨[], 0⟩, []⟩).1 = Except.error UploadErr.localFileMissing ∧
    NetCall.tokenEndpoint ∈ (Client.uploadReceiptM false "Gas"
        ⟨2025, 1, 26, 15, 30, 45, 123⟩ ⟨none, ⟨[], 0⟩, []⟩).2.log ∧
    NetCall.folderQuery ∈ (Client.uploadReceiptM false "Gas"
        ⟨2025, 1, 26, 15, 30, 45, 123⟩ ⟨none, ⟨[], 0⟩, []⟩).2.log ∧
    NetCall.folderCreate ∈ (Client.uploadReceiptM false "Gas"
        ⟨2025, 1, 26, 15, 30, 45, 123⟩ ⟨none, ⟨[], 0⟩, []⟩).2.log :=
  ⟨by rfl, by decide, by decide, by decide⟩

/-- Claim C4 (amended): when the local file named by `filePath` does
not exist, `uploadReceipt` fails with the missing-local-file error and
no upload request is ever issued; the token-endpoint, folder-query and
folder-create calls of the folder-resolution phase do run first. -/
theorem uploadReceipt_missing_file_before_upload
    (c : Client) (description : String) (d : JsDate) :
    (c.uploadReceiptM false description d).1 =
      Except.error UploadErr.localFileMissing ∧
    (c.uploadReceiptM false description d).2.log.count NetCall.uploadPost =
      c.log.count NetCall.uploadPost := by
  cases hE : c.ensureFolderPathM (uploadYear d) (uploadMonth d) with
  | mk mfid c1 =>
    have hcnt := count_uploadPost_ensure (uploadYear d) (uploadMonth d) c
    rw [hE] at hcnt
    cases hT : c1.getAccessTokenM with
    | mk tok c1' =>
      have hcnt2 := count_uploadPost_token c1
      rw [hT] at hcnt2
      constructor
      · simp [Client.uploadReceiptM, hE, Client.uploadFileM, hT]
      · simp [Client.uploadReceiptM, hE, Client.uploadFileM, hT, hcnt2, hcnt]

/-- How many untrashed folders named `name` (under `pid`, when given)
a node list holds — the multiplicity the no-duplication claim is
about. -/
def countMatch (name : String) (pid : Option Nat) (l : List DriveNode) : Nat :=
  (l.filter (folderQueryMatch name pid)).length

theorem countMatch_append (name : String) (pid : Option Nat) (A B : List DriveNode) :
    countMatch name pid (A ++ B) = countMatch name pid A + countMatch name pid B := by
  simp [countMatch, List.filter_append]

theorem countMatch_eq_zero_of_none {name : String} {pid : Option Nat}
    {A : List DriveNode} (h : A.find? (folderQueryMatch name pid) = none) :
    countMatch name pid A = 0 := by
  unfold countMatch
  rw [List.filter_eq_nil_iff.2 (List.find?_eq_none.1 h)]
  rfl

theorem countMatch_pos_of_some {name : String} {pid : Option Nat}
    {A : List DriveNode} {node : DriveNode}
    (h : A.find? (folderQueryMatch name pid) = some node) :
    1 ≤ countMatch name pid A := by
  have hmem : node ∈ A.filter (folderQueryMatch name pid) :=
    List.mem_filter.2 ⟨List.mem_of_find?_eq_some h, List.find?_some h⟩
  have := List.length_pos_of_mem hmem
  simpa [countMatch] using this

theorem mk_matches_self (i : Nat) (name : String) (pid : Option Nat) :
    folderQueryMatch name pid (mkFolderNode i name pid) = true := by
  cases pid <;> simp [folderQueryMatch, mkFolderNode]

theorem name_eq_of_match {name : String} {pid : Option Nat} {f : DriveNode}
    (h : folderQueryMatch name pid f = true) : f.name = name := by
  simp only [folderQueryMatch, Bool.and_eq_true, beq_iff_eq] at h
  exact h.1.1.1

theorem countMatch_mk_ne_name {n' name : String} {p' pid : Option Nat} {i : Nat}
    (h : n' ≠ name) : countMatch n' p' [mkFolderNode i name pid] = 0 := by
  have : folderQueryMatch n' p' (mkFolderNode i name pid) = false := by
    apply Bool.eq_false_iff.2
    intro hmatch
    exact h ((name_eq_of_match hmatch).symm)
  simp [countMatch, List.filter_cons, this]

theorem countMatch_mk_ne_parent {n' name : String} {q q' i : Nat}
    (h : q' ≠ q) : countMatch n' (some q') [mkFolderNode i name (some q)] = 0 := by
  have : folderQueryMatch n' (some q') (mkFolderNode i name (some q)) = false := by
    apply Bool.eq_false_iff.2
    intro hmatch
    simp only [folderQueryMatch, mkFolderNode, Bool.and_eq_true, beq_iff_eq,
      Option.some.injEq] at hmatch
    exact h hmatch.2.symm
  simp [countMatch, List.filter_cons, this]

theorem findFolder_none_iff {name : String} {pid : Option Nat} {s : DriveState} :
    findFolder name pid s = none ↔
      s.nodes.find? (folderQueryMatch name pid) = none := by
  unfold findFolder
  exact Option.map_eq_none'

theorem findFolder_some_elim {name : String} {pid : Option Nat} {s : DriveState}
    {fid : Nat} (h : findFolder name pid s = some fid) :
    ∃ node, s.nodes.find? (folderQueryMatch name pid) = some node ∧ node.id = fid := by
  unfold findFolder at h
  exact Option.map_eq_some'.1 h

theorem findFolder_append {name : String} {pid : Option Nat}
    {s s' : DriveState} {B : List DriveNode} {fid : Nat}
    (hn : s'.nodes = s.nodes ++ B) (h : findFolder name pid s = some fid) :
    findFolder name pid s' = some fid := by
  obtain ⟨node, hfind, hid⟩ := findFolder_some_elim h
  unfold findFolder
  rw [hn, List.find?_append, hfind]
  simp [hid]

/-- Postcondition of one find-or-create stage on a well-formed store:
the node list only grows at the end, well-formedness is preserved, the
returned id resolves to a node carrying the requested name, the stage's
own query now finds exactly that id, the stage's own multiplicity
becomes exactly one (from at most one), and every query with a
different name — or a different required parent — keeps its
multiplicity. -/
theorem findOrCreate_post (name : String) (pid : Option Nat) (s : DriveState)
    (rid : Nat) (s' : DriveState) (h : findOrCreate name pid s = (rid, s'))
    (hids : (s.nodes.map DriveNode.id).Nodup)
    (hlt : ∀ f ∈ s.nodes, f.id < s.nextId) :
    (∃ tail, s'.nodes = s.nodes ++ tail) ∧
    s.nextId ≤ s'.nextId ∧
    (s'.nodes.map DriveNode.id).Nodup ∧
    (∀ f ∈ s'.nodes, f.id < s'.nextId) ∧
    (∃ node, node ∈ s'.nodes ∧ node.id = rid ∧ node.name = name) ∧
    findFolder name pid s' = some rid ∧
    (countMatch name pid s.nodes ≤ 1 → countMatch name pid s'.nodes = 1) ∧
    (∀ n' p', n' ≠ name → countMatch n' p' s'.nodes = countMatch n' p' s.nodes) ∧
    (∀ n' q q', pid = some q → q' ≠ q →
      countMatch n' (some q') s'.nodes = countMatch n' (some q') s.nodes) := by
  cases hf : findFolder name pid s with
  | some fid =>
    have hs : rid = fid ∧ s' = s := by
      unfold findOrCreate at h
      rw [hf] at h
      exact ⟨(Prod.mk.injEq _ _ _ _ ▸ h).1.symm, (Prod.mk.injEq _ _ _ _ ▸ h).2.symm⟩
    obtain ⟨hrid, hss⟩ := hs
    subst hrid
    subst hss
    obtain ⟨node, hfind, hid⟩ := findFolder_some_elim hf
    have hmem := List.mem_of_find?_eq_some hfind
    have hmatch := List.find?_some hfind
    refine ⟨⟨[], by simp⟩, le_refl _, hids, hlt,
      ⟨node, hmem, hid, name_eq_of_match hmatch⟩, hf, ?_, fun _ _ _ => rfl,
      fun _ _ _ _ _ => rfl⟩
    intro hle
    exact le_antisymm hle (countMatch_pos_of_some hfind)
  | none =>
    have hfd : s.nodes.find? (folderQueryMatch name pid) = none :=
      findFolder_none_iff.1 hf
    have hs : rid = s.nextId ∧
        s' = ⟨s.nodes ++ [mkFolderNode s.nextId name pid], s.nextId + 1⟩ := by
      unfold findOrCreate createFolder at h
      rw [hf] at h
      exact ⟨(Prod.mk.injEq _ _ _ _ ▸ h).1.symm, (Prod.mk.injEq _ _ _ _ ▸ h).2.symm⟩
    obtain ⟨hrid, hss⟩ := hs
    subst hrid
    subst hss
    refine ⟨⟨[mkFolderNode s.nextId name pid], rfl⟩, Nat.le_succ _, ?_, ?_,
      ⟨mkFolderNode s.nextId name pid, by simp, rfl, rfl⟩, ?_, ?_, ?_, ?_⟩
    · rw [List.map_append]
      refine List.nodup_append.2 ⟨hids, by simp, ?_⟩
      intro a ha hb
      simp only [List.map_cons, List.map_nil, List.mem_cons, List.not_mem_nil,
        or_false, mkFolderNode] at hb
      obtain ⟨f, hfmem, hfid⟩ := List.mem_map.1 ha
      have := hlt f hfmem
      omega
    · intro f hfmem
      rcases List.mem_append.1 hfmem with hold | hnew
      · exact Nat.lt_succ_of_lt (hlt f hold)
      · simp only [List.mem_cons, List.not_mem_nil, or_false] at hnew
        subst hnew
        exact Nat.lt_succ_self _
    · unfold findFolder
      simp only [List.find?_append, hfd]
      rw [List.find?_cons_of_pos _ (mk_matches_self s.nextId name pid)]
      rfl
    · intro _
      rw [show (⟨s.nodes ++ [mkFolderNode s.nextId name pid], s.nextId + 1⟩ :
          DriveState).nodes = s.nodes ++ [mkFolderNode s.nextId name pid] from rfl,
        countMatch_append, countMatch_eq_zero_of_none hfd]
      simp [countMatch, List.filter_cons, mk_matches_self]
    · intro n' p' hne
      rw [show (⟨s.nodes ++ [mkFolderNode s.nextId name pid], s.nextId + 1⟩ :
          DriveState).nodes = s.nodes ++ [mkFolderNode s.nextId name pid] from rfl,
        countMatch_append, countMatch_mk_ne_name hne]
      omega
    · intro n' q q' hq hne
      subst hq
      rw [show (⟨s.nodes ++ [mkFolderNode s.nextId name (some q)], s.nextId + 1⟩ :
          DriveState).nodes = s.nodes ++ [mkFolderNode s.nextId name (some q)] from rfl,
        countMatch_append, countMatch_mk_ne_parent hne]
      omega

/-- Claim C1: starting from a well-formed store (distinct ids below the
fresh-id counter) holding at most one untrashed `receipts` folder and
at most one folder of the year and month names under any parent (the
year and month arguments not being the literal `receipts`), a second
`ensureFolderPath(year, month)` call returns the same month-folder id
and the same store — it performs find steps only, creating nothing —
and afterwards exactly one `receipts` folder, one year folder under it
and one month folder under that year exist. -/
theorem ensureFolderPath_idempotent_no_duplicates
    (y m : String) (s : DriveState)
    (hids : (s.nodes.map DriveNode.id).Nodup)
    (hlt : ∀ f ∈ s.nodes, f.id < s.nextId)
    (hy : y ≠ "receipts") (hm : m ≠ "receipts")
    (hr1 : countMatch "receipts" none s.nodes ≤ 1)
    (hy1 : ∀ p, countMatch y (some p) s.nodes ≤ 1)
    (hm1 : ∀ p, countMatch m (some p) s.nodes ≤ 1) :
    ensureFolderPath y m (ensureFolderPath y m s).2 = ensureFolderPath y m s ∧
    ∃ rid yid,
      findFolder "receipts" none (ensureFolderPath y m s).2 = some rid ∧
      findFolder y (some rid) (ensureFolderPath y m s).2 = some yid ∧
      findFolder m (some yid) (ensureFolderPath y m s).2 =
        some (ensureFolderPath y m s).1 ∧
      countMatch "receipts" none (ensureFolderPath y m s).2.nodes = 1 ∧
      countMatch y (some rid) (ensureFolderPath y m s).2.nodes = 1 ∧
      countMatch m (some yid) (ensureFolderPath y m s).2.nodes = 1 := by
  cases h1 : findOrCreate "receipts" none s with
  | mk rid s1 =>
  cases h2 : findOrCreate y (some rid) s1 with
  | mk yid s2 =>
  cases h3 : findOrCreate m (some yid) s2 with
  | mk mid s3 =>
  have hrun : ensureFolderPath y m s = (mid, s3) := by
    simp [ensureFolderPath, h1, h2, h3]
  obtain ⟨⟨t1, ht1⟩, hn1, hids1, hlt1, ⟨nodeR, hRmem, hRid, hRname⟩,
    hfind1, hc1, hp1, hpp1⟩ :=
    findOrCreate_post "receipts" none s rid s1 h1 hids hlt
  obtain ⟨⟨t2, ht2⟩, hn2, hids2, hlt2, ⟨nodeY, hYmem, hYid, hYname⟩,
    hfind2, hc2, hp2, hpp2⟩ :=
    findOrCreate_post y (some rid) s1 yid s2 h2 hids1 hlt1
  obtain ⟨⟨t3, ht3⟩, hn3, hids3, hlt3, ⟨nodeM, hMmem, hMid, hMname⟩,
    hfind3, hc3, hp3, hpp3⟩ :=
    findOrCreate_post m (some yid) s2 mid s3 h3 hids2 hlt2
  have hRmem2 : nodeR ∈ s2.nodes := by
    rw [ht2]
    exact List.mem_append_left _ hRmem
  have hry : yid ≠ rid := by
    intro he
    have hnn : nodeY = nodeR :=
      List.inj_on_of_nodup_map hids2 hYmem hRmem2 (by rw [hYid, hRid, he])
    exact hy (by rw [← hYname, hnn, hRname])
  have hfind1s : findFolder "receipts" none s3 = some rid :=
    findFolder_append ht3 (findFolder_append ht2 hfind1)
  have hfind2s : findFolder y (some rid) s3 = some yid :=
    findFolder_append ht3 hfind2
  have hsecond : ensureFolderPath y m s3 = (mid, s3) := by
    simp [ensureFolderPath, findOrCreate, hfind1s, hfind2s, hfind3]
  have hcR : countMatch "receipts" none s3.nodes = 1 := by
    rw [hp3 "receipts" none (fun he => hm he.symm),
      hp2 "receipts" none (fun he => hy he.symm)]
    exact hc1 hr1
  have hcY : countMatch y (some rid) s3.nodes = 1 := by
    have c1 : countMatch y (some rid) s1.nodes ≤ 1 := by
      rw [hp1 y (some rid) hy]
      exact hy1 rid
    have c2 : countMatch y (some rid) s2.nodes = 1 := hc2 c1
    by_cases hym : y = m
    · rw [hpp3 y yid rid rfl (Ne.symm hry)]
      exact c2
    · rw [hp3 y (some rid) hym]
      exact c2
  have hcM : countMatch m (some yid) s3.nodes = 1 := by
    have c1 : countMatch m (some yid) s1.nodes ≤ 1 := by
      rw [hp1 m (some yid) hm]
      exact hm1 yid
    have c2 : countMatch m (some yid) s2.nodes ≤ 1 := by
      by_cases hmy : m = y
      · rw [hpp2 m rid yid rfl hry]
        exact c1
      · rw [hp2 m (some yid) hmy]
        exact c1
    exact hc3 c2
  rw [hrun]
  exact ⟨hsecond, rid, yid, hfind1s, hfind2s, hfind3, hcR, hcY, hcM⟩

/-- Claim C1 witness: two runs of `ensureFolderPath "2025" "01"`
against an initially empty store. -/
theorem ensureFolderPath_idempotent_no_duplicates_witness :
    ensureFolderPath "2025" "01" (ensureFolderPath "2025" "01" ⟨[], 0⟩).2 =
      ensureFolderPath "2025" "01" ⟨[], 0⟩ ∧
    ∃ rid yid,
      findFolder "receipts" none (ensureFolderPath "2025" "01" ⟨[], 0⟩).2 = some rid ∧
      findFolder "2025" (some rid) (ensureFolderPath "2025" "01" ⟨[], 0⟩).2 = some yid ∧
      findFolder "01" (some yid) (ensureFolderPath "2025" "01" ⟨[], 0⟩).2 =
        some (ensureFolderPath "2025" "01" ⟨[], 0⟩).1 ∧
      countMatch "receipts" none (ensureFolderPath "2025" "01" ⟨[], 0⟩).2.nodes = 1 ∧
      countMatch "2025" (some rid) (ensureFolderPath "2025" "01" ⟨[], 0⟩).2.nodes = 1 ∧
      countMatch "01" (some yid) (ensureFolderPath "2025" "01" ⟨[], 0⟩).2.nodes = 1 :=
  ensureFolderPath_idempotent_no_duplicates "2025" "01" ⟨[], 0⟩
    (by decide) (by decide) (by decide) (by decide) (by decide)
    (fun _ => Nat.zero_le 1) (fun _ => Nat.zero_le 1)

end Receipts
